import Mathlib

/-!
Verification model of the starknet.js contract-binding layer
(`src/contract/default.ts` and the `ContractFactory` file).

The TypeScript source is embedded shallowly:

* `JSValue` is the dynamic value domain (JavaScript semantics for
  truthiness, property access and the `in` operator, including the
  `typeof null === 'object'` quirk).
* Effectful dispatcher methods are modelled in `M α`, a pair of the
  list of observable actions performed (validation, compilation,
  warnings, backend requests) and an `Except` final outcome, so that
  "fails before any backend interaction" is the statement that the
  action trace is empty.
* The external `CallData` compiler (src/utils/calldata, not part of the
  two source files) is abstracted as a record of response functions.
-/

namespace StarknetJS

/-- The dynamic JavaScript value domain used by the binding layer.
Arrays carry a boolean marking the `compiled` tag that the calldata
compiler puts on the arrays it returns. -/
inductive JSValue where
  | undefined : JSValue
  | null : JSValue
  | bool (b : Bool) : JSValue
  | num (n : Int) : JSValue
  | str (s : String) : JSValue
  | obj (fields : List (String × JSValue)) : JSValue
  | arr (compiled : Bool) (elems : List JSValue) : JSValue

/-- JavaScript truthiness. -/
def truthy : JSValue → Bool
  | .undefined => false
  | .null => false
  | .bool b => b
  | .num n => n != 0
  | .str s => s != ""
  | .obj _ => true
  | .arr _ _ => true

/-- Strict `=== null` comparison (the source asserts `address !== null`,
which an `undefined` address passes). -/
def isNull : JSValue → Bool
  | .null => true
  | _ => false

/-- Digit-string parsing (a kernel-reducible stand-in for the runtime's
numeric array-index interpretation of property keys). -/
def natOfDigits : List Char → Nat → Option Nat
  | [], acc => some acc
  | c :: cs, acc =>
      if c.isDigit then natOfDigits cs (acc * 10 + (c.toNat - 48)) else none

/-- A property key read as an array index when it is all digits. -/
def jsIndexKey (k : String) : Option Nat :=
  match k.data with
  | [] => none
  | l => natOfDigits l 0

/-- Property read with optional-chaining semantics (`v?.[k]`): reading a
property of `null`/`undefined` or of a primitive yields `undefined`.
Arrays expose their indices, a non-enumerable `length`, and the
`compiled` tag when present. -/
def getProp : JSValue → String → JSValue
  | .obj fields, k => (fields.lookup k).getD .undefined
  | .arr compiled elems, k =>
      if k == "compiled" then (if compiled then .bool true else .undefined)
      else if k == "length" then .num elems.length
      else match jsIndexKey k with
        | some i => elems.getD i .undefined
        | none => .undefined
  | _, _ => .undefined

/-- Destructuring with a default value: `{ k = deflt } = opts` binds the
default exactly when the property is `undefined`. -/
def destructGet (opts : JSValue) (k : String) (deflt : JSValue) : JSValue :=
  match getProp opts k with
  | .undefined => deflt
  | v => v

/-- Errors a dispatcher run can surface: a thrown `Error(msg)` (assert
failures, capability and precondition failures), a JavaScript
`TypeError`, or a validation failure raised by the external calldata
validator. -/
inductive JsError where
  | error (msg : String) : JsError
  | typeError : JsError
  | validationError (mode method : String) : JsError

/-- The option-key vocabulary of `splitArgsAndOptions`
(src/contract/default.ts lines 23-31): one single list, consulted by
both the call-style and the invoke-style bound operations. -/
def optionKeys : List String :=
  ["blockIdentifier", "parseRequest", "parseResponse", "formatResponse",
   "maxFee", "nonce", "signature"]

/-- The keys the `in` operator sees on an array value: the indices,
`length`, and the `compiled` tag when present. -/
def arrKeys (compiled : Bool) (elems : List JSValue) : List String :=
  (List.range elems.length).map toString ++ ["length"] ++
    (if compiled then ["compiled"] else [])

/-- `splitArgsAndOptions` (src/contract/default.ts lines 22-37).
`typeof lastArg === 'object'` holds for plain objects, for arrays and
for `null`; in the `null` case the very first evaluation of
`x in lastArg` throws a `TypeError`.  When a trailing object carries at
least one recognized option key it is popped off the positional list
and returned as the options object. -/
def splitArgsAndOptions (argList : List JSValue) :
    Except JsError (List JSValue × JSValue) :=
  match argList.getLast?.getD .undefined with
  | .null => .error .typeError
  | .obj fields =>
      if optionKeys.any (fun k => fields.any (fun p => p.1 == k)) then
        .ok (argList.dropLast, .obj fields)
      else
        .ok (argList, .obj [])
  | .arr compiled elems =>
      if optionKeys.any (fun k => (arrKeys compiled elems).contains k) then
        .ok (argList.dropLast, .arr compiled elems)
      else
        .ok (argList, .obj [])
  | _ => .ok (argList, .obj [])

example :
    splitArgsAndOptions [.num 1, .num 2, .obj [("maxFee", .num 10)]] =
      .ok ([.num 1, .num 2], .obj [("maxFee", .num 10)]) := rfl

example :
    splitArgsAndOptions [.num 1, .num 2, .obj [("notAnOption", .bool true)]] =
      .ok ([.num 1, .num 2, .obj [("notAnOption", .bool true)]], .obj []) := rfl

example : splitArgsAndOptions [.num 1, .null] = .error .typeError := rfl

/-- The canonical request object `{ contractAddress, entrypoint, calldata }`. -/
structure Call where
  contractAddress : JSValue
  entrypoint : String
  calldata : JSValue

/-- Observable actions a dispatcher run performs, in order: calls into
the external calldata validator/compiler, console warnings, and backend
requests. -/
inductive Action where
  | validate (mode method : String) (args : JSValue) : Action
  | compile (method : String) (args : JSValue) : Action
  | warn (msg : String) : Action
  | callContract (call : Call) (blockIdentifier : JSValue) : Action
  | execute (call : Call) (maxFee nonce : JSValue) : Action
  | invokeFunction (call : Call) (signature nonce : JSValue) : Action
  | estimateInvokeFee (call : Call) : Action
  | declareAndDeploy (constructorCalldata salt : JSValue) : Action

/-- A dispatcher run: the trace of actions performed (also the ones
performed before a throw) together with the outcome. -/
def M (α : Type) : Type := List Action × Except JsError α

/-- Map over the outcome of a run. -/
def M.mapValue {α β : Type} (m : M α) (g : α → β) : M β :=
  (m.1, m.2.map g)

/-- `execute`/`invokeFunction`/`declareAndDeploy` requests: the
write-dispatch backend path. -/
def Action.isWriteDispatch : Action → Bool
  | .execute _ _ _ => true
  | .invokeFunction _ _ _ => true
  | .declareAndDeploy _ _ => true
  | _ => false

/-- `callContract` requests: the read-dispatch backend path. -/
def Action.isReadDispatch : Action → Bool
  | .callContract _ _ => true
  | _ => false

/-- Modelled from the spec: the `CallData` compiler/validator/parser of
§4.1 lives in src/utils/calldata, which is not among the source files;
its externally visible behavior is abstracted as arbitrary response
functions.  `validateOk` tells whether `validate(mode, method, args)`
succeeds (it throws a `ValidationError` otherwise); `compileResult` is
the calldata produced by `compile(args, inputs)`; `compileByName` is the
calldata produced by the `compile('constructor', args)` overload used by
the factory; `parseResult` and `formatResult` decode a wire result. -/
structure CallDataImpl where
  validateOk : String → String → JSValue → Bool
  compileResult : Option (List (String × String)) → JSValue → JSValue
  compileByName : String → JSValue → JSValue
  parseResult : String → List String → JSValue
  formatResult : String → List String → JSValue → JSValue

/-- Modelled from the spec: the injected provider/account backend (§6),
external to the source files.  Capability flags mirror the source's
`'execute' in providerOrAccount` / `'estimateInvokeFee' in
providerOrAccount` probes; the response fields are the values the
backend returns for the single request of each kind a run makes. -/
structure Backend where
  hasExecute : Bool
  hasEstimateInvokeFee : Bool
  callContractResult : List String
  executeResponse : JSValue
  invokeFunctionResponse : JSValue
  estimateResponse : JSValue
  deployAddress : JSValue
  deployTxHash : JSValue

/-- A function (or struct) entry of the ABI schema, as the dynamic
record the source inspects.  `inputs := none` models the field being
absent (`undefined`). -/
structure AbiEntry where
  type : String
  name : String
  inputs : Option (List (String × String)) := none
  stateMutability : Option String := none
  state_mutability : Option String := none

/-- The bound contract instance: schema, current address, backend, and
the calldata compiler built from the schema. -/
structure Contract where
  abi : List AbiEntry
  address : JSValue
  backend : Backend
  callData : CallDataImpl

/-- `x.result` of a read request as a value (an array of wire words). -/
def wordsValue (ws : List String) : JSValue :=
  .arr false (ws.map .str)

/-- The `compiled`-tag sniffing of `getCalldata`
(src/contract/default.ts lines 94-101): the args value itself, or its
first element, already tagged as compiled calldata. -/
def taggedCalldata (args : JSValue) : Option JSValue :=
  if truthy (getProp args "compiled") then some args
  else if truthy (getProp (getProp args "0") "compiled") then
    some (getProp args "0")
  else none

/-- `getCalldata(args, callback)` (src/contract/default.ts lines
94-101): pre-tagged calldata is passed through unchanged, otherwise the
callback runs. -/
def getCalldata (args : JSValue) (callback : M JSValue) : M JSValue :=
  match taggedCalldata args with
  | some cd => ([], .ok cd)
  | none => callback

/-- The parse-request branch of the `getCalldata` callbacks in `call`
and `invoke`: look the method up in the ABI (destructuring `undefined`
throws a `TypeError` when it is absent), validate under the given mode,
then compile against the declared inputs. -/
def parsedCalldata (cd : CallDataImpl) (mode : String) (abi : List AbiEntry)
    (method : String) (args : JSValue) : M JSValue :=
  match abi.find? (fun e => e.name == method) with
  | none => ([], .error .typeError)
  | some e =>
      if cd.validateOk mode method args then
        ([.validate mode method args, .compile method args],
         .ok (cd.compileResult e.inputs args))
      else
        ([.validate mode method args], .error (.validationError mode method))

/-- The parse-request-disabled branch: warn and forward the raw args. -/
def skipParseWarn (who : String) (args : JSValue) : M JSValue :=
  ([.warn (who ++ " skipped parsing but provided rawArgs, possible malfunction request")],
   .ok args)

/-- The args-to-calldata resolution of `Contract.call`. -/
def callCalldata (c : Contract) (method : String) (args opts : JSValue) :
    M JSValue :=
  getCalldata args
    (if truthy (destructGet opts "parseRequest" (.bool true)) then
       parsedCalldata c.callData "CALL" c.abi method args
     else skipParseWarn "Call" args)

/-- The args-to-calldata resolution of `Contract.invoke`. -/
def invokeCalldata (c : Contract) (method : String) (args opts : JSValue) :
    M JSValue :=
  getCalldata args
    (if truthy (destructGet opts "parseRequest" (.bool true)) then
       parsedCalldata c.callData "INVOKE" c.abi method args
     else skipParseWarn "Invoke" args)

/-- The `.then` response handling of `Contract.call` (lines 244-252):
the raw wire result when response parsing is disabled, the formatted
result when a format map is supplied, the parsed result otherwise. -/
def callResponseValue (c : Contract) (method : String) (opts : JSValue) :
    JSValue :=
  if !truthy (destructGet opts "parseResponse" (.bool true)) then
    wordsValue c.backend.callContractResult
  else if truthy (destructGet opts "formatResponse" .undefined) then
    c.callData.formatResult method c.backend.callContractResult
      (destructGet opts "formatResponse" .undefined)
  else
    c.callData.parseResult method c.backend.callContractResult

/-- `Contract.call` (src/contract/default.ts lines 211-253): assert the
address is not (strictly) `null`, resolve the calldata, send the read
request, and decode the response per the `parseResponse` /
`formatResponse` options. -/
def Contract.call (c : Contract) (method : String) (args opts : JSValue) :
    M JSValue :=
  if isNull c.address then
    ([], .error (.error "contract is not connected to an address"))
  else
    match callCalldata c method args opts with
    | (tr, .error e) => (tr, .error e)
    | (tr, .ok calldata) =>
        (tr ++ [.callContract ⟨c.address, method, calldata⟩
                  (destructGet opts "blockIdentifier" .undefined)],
         .ok (callResponseValue c method opts))

/-- `Contract.invoke` (src/contract/default.ts lines 255-299): same
address precondition and calldata resolution; an account-capable
backend gets `execute`, otherwise a truthy nonce is demanded
(`if (!nonce) throw ...`) before warning and sending a direct
`invokeFunction` with the explicit signature. -/
def Contract.invoke (c : Contract) (method : String) (args opts : JSValue) :
    M JSValue :=
  if isNull c.address then
    ([], .error (.error "contract is not connected to an address"))
  else
    match invokeCalldata c method args opts with
    | (tr, .error e) => (tr, .error e)
    | (tr, .ok calldata) =>
        if c.backend.hasExecute then
          (tr ++ [.execute ⟨c.address, method, calldata⟩
                    (destructGet opts "maxFee" .undefined)
                    (destructGet opts "nonce" .undefined)],
           .ok c.backend.executeResponse)
        else if !truthy (destructGet opts "nonce" .undefined) then
          (tr, .error (.error "Nonce is required when invoking a function without an account"))
        else
          (tr ++ [.warn ("Invoking " ++ method ++ " without an account. This will not work on a public node."),
                  .invokeFunction ⟨c.address, method, calldata⟩
                    (destructGet opts "signature" .undefined)
                    (destructGet opts "nonce" .undefined)],
           .ok c.backend.invokeFunctionResponse)

/-- `Contract.populate` (src/contract/default.ts lines 315-324): look
the method up (a `TypeError` when absent), resolve the calldata (always
compiling, never validating), and return the unsent `Call`. -/
def Contract.populate (c : Contract) (method : String) (args : JSValue) :
    M Call :=
  match c.abi.find? (fun e => e.name == method) with
  | none => ([], .error .typeError)
  | some e =>
      match getCalldata args
          ([.compile method args], .ok (c.callData.compileResult e.inputs args)) with
      | (tr, .error er) => (tr, .error er)
      | (tr, .ok calldata) => (tr, .ok ⟨c.address, method, calldata⟩)

/-- `Contract.estimate` (src/contract/default.ts lines 301-313): same
address precondition; when the args are not pre-tagged calldata,
validate under `INVOKE` mode; build the `Call` via `populate`; then
demand the fee-estimation capability. -/
def Contract.estimate (c : Contract) (method : String) (args : JSValue) :
    M JSValue :=
  if isNull c.address then
    ([], .error (.error "contract is not connected to an address"))
  else
    match getCalldata args ([], .ok (.bool false)) with
    | (tr0, .error e) => (tr0, .error e)
    | (tr0, .ok g) =>
        match (if !truthy g then
                 (if c.callData.validateOk "INVOKE" method args then
                    ([Action.validate "INVOKE" method args], Except.ok ())
                  else
                    ([Action.validate "INVOKE" method args],
                     Except.error (JsError.validationError "INVOKE" method)))
               else (([], Except.ok ()) : M Unit)) with
        | (tr1, .error e) => (tr0 ++ tr1, .error e)
        | (tr1, .ok ()) =>
            match c.populate method args with
            | (tr2, .error e) => (tr0 ++ tr1 ++ tr2, .error e)
            | (tr2, .ok invocation) =>
                if c.backend.hasEstimateInvokeFee then
                  (tr0 ++ tr1 ++ tr2 ++ [.estimateInvokeFee invocation],
                   .ok c.backend.estimateResponse)
                else
                  (tr0 ++ tr1 ++ tr2,
                   .error (.error "Contract must be connected to the account contract to estimate"))

/-- A bound operation attached at construction, tagged by the builder
that produced it (src/contract/default.ts lines 42-92): `buildCall`
and `buildInvoke` split the trailing options object off the argument
list before dispatching, `buildPopulate` and `buildEstimate` forward
the raw argument list. -/
inductive BoundOp where
  | callOp (f : AbiEntry) : BoundOp
  | invokeOp (f : AbiEntry) : BoundOp
  | populateOp (f : AbiEntry) : BoundOp
  | estimateOp (f : AbiEntry) : BoundOp

/-- `buildCall` (lines 42-51). -/
def buildCall (f : AbiEntry) : BoundOp := .callOp f

/-- `buildInvoke` (lines 56-64). -/
def buildInvoke (f : AbiEntry) : BoundOp := .invokeOp f

/-- `buildPopulate` (lines 79-83). -/
def buildPopulate (f : AbiEntry) : BoundOp := .populateOp f

/-- `buildEstimate` (lines 88-92). -/
def buildEstimate (f : AbiEntry) : BoundOp := .estimateOp f

/-- The mutability test of `buildDefault` (line 70):
`stateMutability === 'view' || state_mutability === 'view'`. -/
def isViewFunction (f : AbiEntry) : Bool :=
  f.stateMutability == some "view" || f.state_mutability == some "view"

/-- `buildDefault` (lines 69-74): route view functions to the read
path, everything else to the write path. -/
def buildDefault (f : AbiEntry) : BoundOp :=
  if isViewFunction f then buildCall f else buildInvoke f

/-- The own enumerable fields a value contributes to an object spread
`{...v}`: an object's fields, an array's indexed elements (its `length`
and the `compiled` tag are not enumerable), nothing for primitives. -/
def ownEnumerableFields : JSValue → List (String × JSValue)
  | .obj fields => fields
  | .arr _ elems => elems.enum.map (fun p => (toString p.1, p.2))
  | _ => []

/-- Replace the value at a key, or append the binding when absent. -/
def setField (fields : List (String × JSValue)) (k : String) (v : JSValue) :
    List (String × JSValue) :=
  if fields.any (fun p => p.1 == k) then
    fields.map (fun p => if p.1 == k then (k, v) else p)
  else fields ++ [(k, v)]

/-- The object literal `{...base fields..., ...v}`: spread fields
override the literal defaults. -/
def spreadMerge (base : List (String × JSValue)) (v : JSValue) : JSValue :=
  .obj ((ownEnumerableFields v).foldl (fun acc p => setField acc p.1 p.2) base)

/-- A bound operation's run result: a decoded/backed value, or the
unsent `Call` returned by a populate-style operation. -/
inductive RunResult where
  | value (v : JSValue) : RunResult
  | callObj (c : Call) : RunResult

/-- Running a bound operation on a contract with a raw argument list.
The call-style and invoke-style closures first apply
`splitArgsAndOptions` and then merge the popped options over their
literal defaults (`{parseRequest: true, parseResponse: true, ...opts}`
for calls, `{parseRequest: true, ...opts}` for invokes); populate-style
and estimate-style closures forward the raw list unchanged. -/
def runBound (op : BoundOp) (c : Contract) (argList : List JSValue) :
    M RunResult :=
  match op with
  | .callOp f =>
      match splitArgsAndOptions argList with
      | .error e => ([], .error e)
      | .ok (pos, opts) =>
          M.mapValue
            (c.call f.name (.arr false pos)
              (spreadMerge
                [("parseRequest", .bool true), ("parseResponse", .bool true)]
                opts))
            RunResult.value
  | .invokeOp f =>
      match splitArgsAndOptions argList with
      | .error e => ([], .error e)
      | .ok (pos, opts) =>
          M.mapValue
            (c.invoke f.name (.arr false pos)
              (spreadMerge [("parseRequest", .bool true)] opts))
            RunResult.value
  | .populateOp f =>
      M.mapValue (c.populate f.name (.arr false argList)) RunResult.callObj
  | .estimateOp f =>
      M.mapValue (c.estimate f.name (.arr false argList)) RunResult.value

/-- An instance property as seen by the constructor's truthiness check
`if (!this[signature])`: a plain value (the address), an internal
object (collections, abi, provider, calldata compiler), a prototype
method (`attach`, `connect`, ...), or an already-bound operation. -/
inductive PropVal where
  | jsVal (v : JSValue) : PropVal
  | internal : PropVal
  | protoMethod (name : String) : PropVal
  | bound (op : BoundOp) : PropVal

/-- Truthiness of an instance property: functions and objects are
truthy, a plain value has JavaScript truthiness. -/
def truthyProp : PropVal → Bool
  | .jsVal v => truthy v
  | _ => true

/-- The instance namespace and the four collections populated by the
constructor loop (src/contract/default.ts lines 159-192). -/
structure BindState where
  own : List (String × PropVal)
  functions : List (String × BoundOp)
  callStatic : List (String × BoundOp)
  populateTransaction : List (String × BoundOp)
  estimateFee : List (String × BoundOp)

/-- `Object.defineProperty` on the instance: redefine in place, or add. -/
def setProp (m : List (String × PropVal)) (k : String) (v : PropVal) :
    List (String × PropVal) :=
  if m.any (fun p => p.1 == k) then
    m.map (fun p => if p.1 == k then (k, v) else p)
  else m ++ [(k, v)]

/-- Truthiness of `this[k]` over the modelled property list: a missing
property reads as `undefined`, hence falsy. -/
def truthyLookup (m : List (String × PropVal)) (k : String) : Bool :=
  match m.lookup k with
  | some v => truthyProp v
  | none => false

/-- `if (!coll[k]) defineProperty(coll, k, v)`: collection entries are
bound functions, always truthy, so this is a presence check. -/
def addIfAbsent {α : Type} (m : List (String × α)) (k : String) (v : α) :
    List (String × α) :=
  match m.lookup k with
  | some _ => m
  | none => m ++ [(k, v)]

/-- One iteration of the constructor's `abi.forEach` loop (lines
159-192): non-function entries are skipped; the instance property is
(re)defined only when `this[signature]` is falsy; each collection gets
the entry only when not already present. -/
def bindStep (st : BindState) (e : AbiEntry) : BindState :=
  if e.type == "function" then
    { own :=
        if truthyLookup st.own e.name then st.own
        else setProp st.own e.name (.bound (buildDefault e)),
      functions := addIfAbsent st.functions e.name (buildDefault e),
      callStatic := addIfAbsent st.callStatic e.name (buildCall e),
      populateTransaction :=
        addIfAbsent st.populateTransaction e.name (buildPopulate e),
      estimateFee := addIfAbsent st.estimateFee e.name (buildEstimate e) }
  else st

/-- The whole constructor loop. -/
def bindAll (init : BindState) (abi : List AbiEntry) : BindState :=
  abi.foldl bindStep init

/-- `this.address = address && address.toLowerCase()` (line 146): a
falsy address (empty string, `null`, `undefined`) short-circuits and is
stored as-is; a non-empty string is lowercased.  (A truthy non-string
would throw in JavaScript and is outside the declared address type.) -/
def addressAnd : JSValue → JSValue
  | .str s => if s == "" then .str "" else .str s.toLower
  | v => v

/-- The instance properties that exist when the constructor loop runs:
the fields assigned on lines 146-157 plus the prototype methods. -/
def constructorOwnProps (address : JSValue) : List (String × PropVal) :=
  [("address", .jsVal address),
   ("providerOrAccount", .internal),
   ("callData", .internal),
   ("structs", .internal),
   ("abi", .internal),
   ("functions", .internal),
   ("callStatic", .internal),
   ("populateTransaction", .internal),
   ("estimateFee", .internal),
   ("attach", .protoMethod "attach"),
   ("connect", .protoMethod "connect"),
   ("deployed", .protoMethod "deployed"),
   ("call", .protoMethod "call"),
   ("invoke", .protoMethod "invoke"),
   ("estimate", .protoMethod "estimate"),
   ("populate", .protoMethod "populate")]

/-- The binding state just before the constructor loop. -/
def initialBindState (address : JSValue) : BindState :=
  { own := constructorOwnProps address,
    functions := [], callStatic := [],
    populateTransaction := [], estimateFee := [] }

/-- The property/binding outcome of `new Contract(abi, address, ...)`:
normalize the address, then run the binding loop over the schema. -/
def constructProps (abi : List AbiEntry) (address : JSValue) : BindState :=
  bindAll (initialBindState (addressAnd address)) abi

/-- The deployed, freshly bound instance `ContractFactory.deploy`
returns: its bound properties, normalized address, and the recorded
deployment transaction hash. -/
structure DeployedContract where
  props : BindState
  address : JSValue
  deployTransactionHash : JSValue

/-- The factory: the compiled artifact's ABI, the account backend, and
the calldata compiler built from the ABI. -/
structure ContractFactory where
  abi : List AbiEntry
  account : Backend
  callData : CallDataImpl

/-- `ContractFactory.deploy(...args)` (factory source lines 65-98):
split off a trailing options object; the written destructuring default
`options = { parseRequest: true }` applies only when the `options`
property is `undefined`, which the splitter never produces; resolve the
constructor calldata (validating under `DEPLOY` mode only when
`options.parseRequest` is truthy, otherwise warning and forwarding the
raw args); request `declareAndDeploy`; assert a truthy resulting
address; and return the freshly bound instance carrying the deployment
transaction hash. -/
def ContractFactory.deploy (cf : ContractFactory) (argList : List JSValue) :
    M DeployedContract :=
  match splitArgsAndOptions argList with
  | .error e => ([], .error e)
  | .ok (param, popped) =>
      let options : JSValue :=
        match popped with
        | .undefined => .obj [("parseRequest", .bool true)]
        | v => v
      let rawParam : JSValue := .arr false param
      match getCalldata rawParam
          (if truthy (getProp options "parseRequest") then
             (if cf.callData.validateOk "DEPLOY" "constructor" rawParam then
                ([.validate "DEPLOY" "constructor" rawParam,
                  .compile "constructor" rawParam],
                 .ok (cf.callData.compileByName "constructor" rawParam))
              else
                ([.validate "DEPLOY" "constructor" rawParam],
                 .error (.validationError "DEPLOY" "constructor")))
           else skipParseWarn "Call" rawParam) with
      | (tr, .error e) => (tr, .error e)
      | (tr, .ok constructorCalldata) =>
          let tr := tr ++ [.declareAndDeploy constructorCalldata
                             (getProp options "addressSalt")]
          if truthy cf.account.deployAddress then
            (tr, .ok { props := constructProps cf.abi cf.account.deployAddress,
                       address := addressAnd cf.account.deployAddress,
                       deployTransactionHash := cf.account.deployTxHash })
          else
            (tr, .error (.error "Deployment of the contract failed"))

/-! ### Concrete fixtures used by witnesses and counterexamples -/

/-- A concrete calldata-compiler behavior: validation always succeeds,
compilation returns an empty tagged array, parsing echoes the words. -/
def cdNop : CallDataImpl :=
  { validateOk := fun _ _ _ => true,
    compileResult := fun _ _ => .arr true [],
    compileByName := fun _ _ => .arr true [],
    parseResult := fun _ ws => wordsValue ws,
    formatResult := fun _ ws _ => wordsValue ws }

/-- A fully capable concrete backend. -/
def bk0 : Backend :=
  { hasExecute := true, hasEstimateInvokeFee := true,
    callContractResult := ["7"],
    executeResponse := .str "txr",
    invokeFunctionResponse := .str "txf",
    estimateResponse := .str "fee",
    deployAddress := .str "0xAB",
    deployTxHash := .str "0xth" }

/-- A view (read-only) function entry. -/
def fView : AbiEntry :=
  { type := "function", name := "bal", inputs := some [("a", "felt")],
    stateMutability := some "view" }

/-- A state-changing function entry. -/
def fWrite : AbiEntry :=
  { type := "function", name := "f", inputs := some [("a", "felt")] }

/-- A concrete connected contract exposing `f`. -/
def c1 : Contract :=
  { abi := [fWrite], address := .str "0xabc", backend := bk0, callData := cdNop }

/-- The same contract without the account capabilities. -/
def cNoAcc : Contract :=
  { c1 with backend := { bk0 with hasExecute := false,
                                  hasEstimateInvokeFee := false } }

/-- The same contract with an `undefined` (unset) address. -/
def cUndef : Contract := { c1 with address := .undefined }

/-- The same contract with a `null` address. -/
def cNull : Contract := { c1 with address := .null }

/-! ### Helper lemmas -/

theorem M.mapValue_fst {α β : Type} (m : M α) (g : α → β) :
    (M.mapValue m g).1 = m.1 := rfl

theorem getCalldata_tagged {args cd : JSValue} (h : taggedCalldata args = some cd)
    (cb : M JSValue) : getCalldata args cb = ([], .ok cd) := by
  simp [getCalldata, h]

theorem getCalldata_untagged {args : JSValue} (h : taggedCalldata args = none)
    (cb : M JSValue) : getCalldata args cb = cb := by
  simp [getCalldata, h]

theorem truthy_of_compiledProp {v : JSValue}
    (h : truthy (getProp v "compiled") = true) : truthy v = true := by
  cases v <;> simp_all [getProp, truthy]

theorem tagged_truthy {args cd : JSValue} (h : taggedCalldata args = some cd) :
    truthy cd = true := by
  unfold taggedCalldata at h
  split at h
  · cases h; exact truthy_of_compiledProp (by assumption)
  · split at h
    · cases h; exact truthy_of_compiledProp (by assumption)
    · cases h

theorem splitter_recognized {argList : List JSValue}
    {fields : List (String × JSValue)}
    (h : argList.getLast? = some (.obj fields))
    (hk : ∃ p ∈ fields, p.1 ∈ optionKeys) :
    splitArgsAndOptions argList = .ok (argList.dropLast, .obj fields) := by
  obtain ⟨p, hp, hpk⟩ := hk
  have hany : (optionKeys.any fun k => fields.any fun q => q.1 == k) = true := by
    simp only [List.any_eq_true]
    exact ⟨p.1, hpk, p, hp, by simp⟩
  unfold splitArgsAndOptions
  rw [h]
  simp [hany]

theorem splitter_unrecognized {argList : List JSValue}
    {fields : List (String × JSValue)}
    (h : argList.getLast? = some (.obj fields))
    (hk : ∀ p ∈ fields, p.1 ∉ optionKeys) :
    splitArgsAndOptions argList = .ok (argList, .obj []) := by
  have hany : (optionKeys.any fun k => fields.any fun q => q.1 == k) = false := by
    by_contra hc
    rw [Bool.not_eq_false] at hc
    simp only [List.any_eq_true, beq_iff_eq] at hc
    obtain ⟨k, hkk, q, hq, hqk⟩ := hc
    exact hk q hq (hqk ▸ hkk)
  unfold splitArgsAndOptions
  rw [h]
  simp [hany]

theorem splitter_null {argList : List JSValue}
    (h : argList.getLast? = some .null) :
    splitArgsAndOptions argList = .error .typeError := by
  unfold splitArgsAndOptions
  rw [h]
  rfl

theorem parsedCalldata_dispatchFree (cd : CallDataImpl) (mode : String)
    (abi : List AbiEntry) (method : String) (args : JSValue) :
    ∀ a ∈ (parsedCalldata cd mode abi method args).1,
      a.isWriteDispatch = false ∧ a.isReadDispatch = false := by
  intro a ha
  unfold parsedCalldata at ha
  split at ha
  · simp at ha
  · split at ha
    · simp at ha
      rcases ha with rfl | rfl <;> exact ⟨rfl, rfl⟩
    · simp at ha
      subst ha
      exact ⟨rfl, rfl⟩

theorem callCalldata_dispatchFree (c : Contract) (method : String)
    (args opts : JSValue) :
    ∀ a ∈ (callCalldata c method args opts).1,
      a.isWriteDispatch = false ∧ a.isReadDispatch = false := by
  intro a ha
  unfold callCalldata at ha
  rcases htag : taggedCalldata args with _ | cd
  · rw [getCalldata_untagged htag] at ha
    split at ha
    · exact parsedCalldata_dispatchFree _ _ _ _ _ a ha
    · unfold skipParseWarn at ha
      simp at ha
      subst ha
      exact ⟨rfl, rfl⟩
  · rw [getCalldata_tagged htag] at ha
    simp at ha

theorem invokeCalldata_dispatchFree (c : Contract) (method : String)
    (args opts : JSValue) :
    ∀ a ∈ (invokeCalldata c method args opts).1,
      a.isWriteDispatch = false ∧ a.isReadDispatch = false := by
  intro a ha
  unfold invokeCalldata at ha
  rcases htag : taggedCalldata args with _ | cd
  · rw [getCalldata_untagged htag] at ha
    split at ha
    · exact parsedCalldata_dispatchFree _ _ _ _ _ a ha
    · unfold skipParseWarn at ha
      simp at ha
      subst ha
      exact ⟨rfl, rfl⟩
  · rw [getCalldata_tagged htag] at ha
    simp at ha

/-- The read dispatcher never performs a write-dispatch backend action. -/
theorem call_writeFree (c : Contract) (method : String) (args opts : JSValue) :
    ∀ a ∈ (Contract.call c method args opts).1, a.isWriteDispatch = false := by
  intro a ha
  unfold Contract.call at ha
  split at ha
  · simp at ha
  · rcases hcc : callCalldata c method args opts with ⟨tr, r⟩
    rw [hcc] at ha
    have htr : ∀ b ∈ tr, b.isWriteDispatch = false ∧ b.isReadDispatch = false := by
      intro b hb
      exact callCalldata_dispatchFree c method args opts b (by rw [hcc]; exact hb)
    cases r with
    | error e => exact (htr a ha).1
    | ok calldata =>
        simp only [List.mem_append] at ha
        rcases ha with ha | ha
        · exact (htr a ha).1
        · simp at ha
          subst ha
          rfl

/-- The write dispatcher never performs a read-dispatch backend action. -/
theorem invoke_readFree (c : Contract) (method : String) (args opts : JSValue) :
    ∀ a ∈ (Contract.invoke c method args opts).1, a.isReadDispatch = false := by
  intro a ha
  unfold Contract.invoke at ha
  split at ha
  · simp at ha
  · rcases hcc : invokeCalldata c method args opts with ⟨tr, r⟩
    rw [hcc] at ha
    have htr : ∀ b ∈ tr, b.isWriteDispatch = false ∧ b.isReadDispatch = false := by
      intro b hb
      exact invokeCalldata_dispatchFree c method args opts b (by rw [hcc]; exact hb)
    cases r with
    | error e => exact (htr a ha).2
    | ok calldata =>
        dsimp only at ha
        by_cases hex : c.backend.hasExecute = true
        · rw [if_pos hex] at ha
          simp only [List.mem_append] at ha
          rcases ha with ha | ha
          · exact (htr a ha).2
          · simp at ha; subst ha; rfl
        · rw [if_neg hex] at ha
          by_cases hn : (!truthy (destructGet opts "nonce" JSValue.undefined)) = true
          · rw [if_pos hn] at ha
            exact (htr a ha).2
          · rw [if_neg hn] at ha
            simp only [List.mem_append] at ha
            rcases ha with ha | ha
            · exact (htr a ha).2
            · simp at ha
              rcases ha with rfl | rfl <;> rfl

/-- Claim C1: for every function entry whose mutability tag
(`stateMutability` or `state_mutability`) is `'view'`, the default bound
operation produced at construction dispatches to the read path
(`Contract.call`) and never performs a write-dispatch backend action;
for every entry not tagged `'view'` it dispatches to the write path
(`Contract.invoke`) and never performs a read-dispatch backend action;
the routing decision is total and deterministic over all entries. -/
theorem C1_mutability_routing (f : AbiEntry) :
    (buildDefault f = buildCall f ∨ buildDefault f = buildInvoke f)
    ∧ (isViewFunction f = true →
       buildDefault f = buildCall f ∧
       ∀ (c : Contract) (argList : List JSValue),
         ∀ a ∈ (runBound (buildDefault f) c argList).1,
           a.isWriteDispatch = false)
    ∧ (isViewFunction f = false →
       buildDefault f = buildInvoke f ∧
       ∀ (c : Contract) (argList : List JSValue),
         ∀ a ∈ (runBound (buildDefault f) c argList).1,
           a.isReadDispatch = false) := by
  refine ⟨?_, ?_, ?_⟩
  · unfold buildDefault
    split
    · exact Or.inl rfl
    · exact Or.inr rfl
  · intro hv
    have hbd : buildDefault f = buildCall f := by simp [buildDefault, hv]
    refine ⟨hbd, ?_⟩
    intro c argList a ha
    rw [hbd] at ha
    unfold runBound buildCall at ha
    rcases hsp : splitArgsAndOptions argList with e | ⟨pos, opts⟩ <;>
      rw [hsp] at ha
    · simp at ha
    · dsimp only at ha
      rw [M.mapValue_fst] at ha
      exact call_writeFree c _ _ _ a ha
  · intro hv
    have hbd : buildDefault f = buildInvoke f := by simp [buildDefault, hv]
    refine ⟨hbd, ?_⟩
    intro c argList a ha
    rw [hbd] at ha
    unfold runBound buildInvoke at ha
    rcases hsp : splitArgsAndOptions argList with e | ⟨pos, opts⟩ <;>
      rw [hsp] at ha
    · simp at ha
    · dsimp only at ha
      rw [M.mapValue_fst] at ha
      exact invoke_readFree c _ _ _ a ha

/-- Witness for C1: a concrete view entry routes to the read path, a
concrete non-view entry routes to the write path. -/
theorem C1_mutability_routing_witness :
    isViewFunction fView = true ∧ buildDefault fView = buildCall fView
    ∧ isViewFunction fWrite = false ∧ buildDefault fWrite = buildInvoke fWrite :=
  ⟨rfl, ((C1_mutability_routing fView).2.1 rfl).1, rfl,
   ((C1_mutability_routing fWrite).2.2 rfl).1⟩

/-- Claim C2 (amended): calling `call`, `invoke`, or `estimate` on an
instance whose address is strictly `null` fails with the precondition
error `contract is not connected to an address` before any backend
interaction (the action trace is empty).  The source checks
`this.address !== null`, so only `null` is rejected — see the
counterexample for an `undefined` address. -/
theorem C2_null_address_precondition (c : Contract) (method : String)
    (args opts : JSValue) (h : c.address = .null) :
    Contract.call c method args opts =
        ([], .error (.error "contract is not connected to an address"))
    ∧ Contract.invoke c method args opts =
        ([], .error (.error "contract is not connected to an address"))
    ∧ Contract.estimate c method args =
        ([], .error (.error "contract is not connected to an address")) := by
  refine ⟨?_, ?_, ?_⟩
  · unfold Contract.call
    rw [h]
    rfl
  · unfold Contract.invoke
    rw [h]
    rfl
  · unfold Contract.estimate
    rw [h]
    rfl

/-- Counterexample to claim C2 as stated: on an instance whose address
is unset (`undefined`), `call` does not fail — the strict `!== null`
check passes, and a backend read request is performed (with an
`undefined` contract address) before returning a parsed result. -/
theorem C2_counterexample :
    cUndef.address = JSValue.undefined
    ∧ Contract.call cUndef "f" (.arr true [.str "5"]) (.obj []) =
        ([.callContract ⟨.undefined, "f", .arr true [.str "5"]⟩ .undefined],
         .ok (.arr false [.str "7"])) :=
  ⟨rfl, rfl⟩

/-- Witness for C2 (amended) at a concrete `null`-address contract. -/
theorem C2_null_address_precondition_witness :
    cNull.address = JSValue.null
    ∧ Contract.call cNull "f" (.arr true [.str "5"]) (.obj []) =
        ([], .error (.error "contract is not connected to an address")) :=
  ⟨rfl, (C2_null_address_precondition cNull "f" (.arr true [.str "5"])
          (.obj []) rfl).1⟩

/-- Claim C3: args already tagged as compiled calldata (the value
itself or its first element) make `call`, `invoke` and `populate` skip
both validation and compilation (no `validate`/`compile` action appears
in the trace) and forward the tagged calldata unchanged into the `Call`
object returned or sent to the backend. -/
theorem C3_precompiled_passthrough (c : Contract) (method : String)
    (args opts cd : JSValue) (htag : taggedCalldata args = some cd) :
    (∀ e, c.abi.find? (fun en => en.name == method) = some e →
        Contract.populate c method args = ([], .ok ⟨c.address, method, cd⟩))
    ∧ (isNull c.address = false →
        Contract.call c method args opts =
          ([.callContract ⟨c.address, method, cd⟩
              (destructGet opts "blockIdentifier" .undefined)],
           .ok (callResponseValue c method opts)))
    ∧ (isNull c.address = false → c.backend.hasExecute = true →
        Contract.invoke c method args opts =
          ([.execute ⟨c.address, method, cd⟩
              (destructGet opts "maxFee" .undefined)
              (destructGet opts "nonce" .undefined)],
           .ok c.backend.executeResponse))
    ∧ (isNull c.address = false → c.backend.hasExecute = false →
        truthy (destructGet opts "nonce" .undefined) = true →
        Contract.invoke c method args opts =
          ([.warn ("Invoking " ++ method ++ " without an account. This will not work on a public node."),
            .invokeFunction ⟨c.address, method, cd⟩
              (destructGet opts "signature" .undefined)
              (destructGet opts "nonce" .undefined)],
           .ok c.backend.invokeFunctionResponse)) := by
  have hcall : callCalldata c method args opts = ([], .ok cd) := by
    unfold callCalldata
    exact getCalldata_tagged htag _
  have hinv : invokeCalldata c method args opts = ([], .ok cd) := by
    unfold invokeCalldata
    exact getCalldata_tagged htag _
  refine ⟨?_, ?_, ?_, ?_⟩
  · intro e hfind
    unfold Contract.populate
    rw [hfind]
    dsimp only
    rw [getCalldata_tagged htag]
  · intro haddr
    unfold Contract.call
    rw [haddr, hcall]
    rfl
  · intro haddr hex
    unfold Contract.invoke
    rw [haddr, hinv]
    dsimp only
    rw [hex]
    rfl
  · intro haddr hex hn
    unfold Contract.invoke
    rw [haddr, hinv]
    dsimp only
    rw [hex, hn]
    rfl

/-- Witness for C3 at a concrete tagged calldata value. -/
theorem C3_precompiled_passthrough_witness :
    taggedCalldata (JSValue.arr true [.str "9"]) = some (.arr true [.str "9"])
    ∧ Contract.populate c1 "f" (.arr true [.str "9"]) =
        ([], .ok ⟨.str "0xabc", "f", .arr true [.str "9"]⟩) :=
  ⟨rfl, (C3_precompiled_passthrough c1 "f" (.arr true [.str "9"]) (.obj [])
          (.arr true [.str "9"]) rfl).1 fWrite rfl⟩

/-- Claim C4: `estimate` against a backend without the fee-estimation
capability fails with the capability error, the populated `Call` was
nevertheless successfully built before the failure (`populate` succeeds
independently), and when the args are not pre-compiled calldata the run
first validates them under `INVOKE` mode (the `validate` action
precedes the `compile` action in the trace). -/
theorem C4_estimate_capability (c : Contract) (method : String)
    (args : JSValue) (e : AbiEntry)
    (haddr : isNull c.address = false)
    (hcap : c.backend.hasEstimateInvokeFee = false)
    (hfind : c.abi.find? (fun en => en.name == method) = some e)
    (hval : (taggedCalldata args).isNone = true →
        c.callData.validateOk "INVOKE" method args = true) :
    Contract.estimate c method args =
      ((if (taggedCalldata args).isNone then
          [Action.validate "INVOKE" method args, Action.compile method args]
        else []),
       .error (.error "Contract must be connected to the account contract to estimate"))
    ∧ ∃ cl, (Contract.populate c method args).2 = .ok cl := by
  rcases htag : taggedCalldata args with _ | cd
  · have hv := hval (by rw [htag]; rfl)
    have hpop : Contract.populate c method args =
        ([.compile method args],
         .ok ⟨c.address, method, c.callData.compileResult e.inputs args⟩) := by
      unfold Contract.populate
      rw [hfind]
      dsimp only
      rw [getCalldata_untagged htag]
    refine ⟨?_, ⟨_, by rw [hpop]⟩⟩
    unfold Contract.estimate
    rw [haddr, getCalldata_untagged htag]
    dsimp only
    rw [hv, hpop, hcap]
    rfl
  · have hpop : Contract.populate c method args =
        ([], .ok ⟨c.address, method, cd⟩) := by
      unfold Contract.populate
      rw [hfind]
      dsimp only
      rw [getCalldata_tagged htag]
    refine ⟨?_, ⟨_, by rw [hpop]⟩⟩
    unfold Contract.estimate
    rw [haddr, getCalldata_tagged htag]
    dsimp only
    rw [tagged_truthy htag, hpop, hcap]
    rfl

/-- Witness for C4 at a concrete capability-free contract: the
validate-then-fail trace. -/
theorem C4_estimate_capability_witness :
    Contract.estimate cNoAcc "f" (.arr false [.num 1]) =
      ([.validate "INVOKE" "f" (.arr false [.num 1]),
        .compile "f" (.arr false [.num 1])],
       .error (.error "Contract must be connected to the account contract to estimate")) := by
  rw [(C4_estimate_capability cNoAcc "f" (.arr false [.num 1]) fWrite rfl rfl rfl
      (fun _ => rfl)).1]
  rfl

/-- Claim C5 (amended): when `invoke` is dispatched against a backend
lacking the execute capability, an absent — or, more generally, falsy
(e.g. zero) — nonce in the overrides causes the precondition error
`Nonce is required when invoking a function without an account` (the
source tests `if (!nonce)`), with no backend dispatch in the trace;
when a truthy nonce is supplied, the call proceeds via the backend's
`invokeFunction` with the explicit signature, preceded by an observable
non-fatal warning. -/
theorem C5_nonce_gate (c : Contract) (method : String) (args opts : JSValue)
    (tr : List Action) (cd : JSValue)
    (haddr : isNull c.address = false)
    (hexec : c.backend.hasExecute = false)
    (hres : invokeCalldata c method args opts = (tr, .ok cd)) :
    (truthy (destructGet opts "nonce" .undefined) = false →
       Contract.invoke c method args opts =
         (tr, .error (.error "Nonce is required when invoking a function without an account"))
       ∧ ∀ a ∈ tr, a.isWriteDispatch = false ∧ a.isReadDispatch = false)
    ∧ (truthy (destructGet opts "nonce" .undefined) = true →
       Contract.invoke c method args opts =
         (tr ++ [.warn ("Invoking " ++ method ++ " without an account. This will not work on a public node."),
                 .invokeFunction ⟨c.address, method, cd⟩
                   (destructGet opts "signature" .undefined)
                   (destructGet opts "nonce" .undefined)],
          .ok c.backend.invokeFunctionResponse)) := by
  constructor
  · intro hn
    constructor
    · unfold Contract.invoke
      rw [haddr, hres]
      dsimp only
      rw [hexec, hn]
      rfl
    · intro a ha
      exact invokeCalldata_dispatchFree c method args opts a
        (by rw [hres]; exact ha)
  · intro hn
    unfold Contract.invoke
    rw [haddr, hres]
    dsimp only
    rw [hexec, hn]
    rfl

/-- Counterexample to claim C5 as stated: a supplied nonce of `0` is
falsy, so the signer-only invocation still fails with the
nonce-required error instead of proceeding via `invokeFunction`. -/
theorem C5_counterexample :
    getProp (JSValue.obj [("nonce", .num 0)]) "nonce" = .num 0
    ∧ Contract.invoke cNoAcc "f" (.arr true [.str "1"])
        (.obj [("nonce", .num 0)]) =
        ([], .error (.error "Nonce is required when invoking a function without an account")) :=
  ⟨rfl, rfl⟩

/-- Witness for C5 (amended) at a concrete truthy nonce. -/
theorem C5_nonce_gate_witness :
    Contract.invoke cNoAcc "f" (.arr true [.str "1"])
        (.obj [("nonce", .num 3)]) =
      ([.warn "Invoking f without an account. This will not work on a public node.",
        .invokeFunction ⟨.str "0xabc", "f", .arr true [.str "1"]⟩ .undefined (.num 3)],
       .ok (.str "txf")) :=
  (((C5_nonce_gate cNoAcc "f" (.arr true [.str "1"]) (.obj [("nonce", .num 3)])
      [] (.arr true [.str "1"]) rfl rfl rfl).2) rfl).trans rfl

/-- Claim C7: the argument/option splitter binds a trailing record
with at least one recognized option key as the options object and the
remaining values as positional arguments, and treats a trailing record
with no recognized option key as a positional argument with an empty
options object. -/
theorem C7_splitter (argList : List JSValue)
    (fields : List (String × JSValue))
    (h : argList.getLast? = some (.obj fields)) :
    ((∃ p ∈ fields, p.1 ∈ optionKeys) →
       splitArgsAndOptions argList = .ok (argList.dropLast, .obj fields))
    ∧ ((∀ p ∈ fields, p.1 ∉ optionKeys) →
       splitArgsAndOptions argList = .ok (argList, .obj [])) :=
  ⟨fun hk => splitter_recognized h hk,
   fun hk => splitter_unrecognized h hk⟩

/-- Witness for C7: `f(1, 2, {maxFee: 10})` binds `{1,2}` positional
with `{maxFee: 10}` as options; `f(1, 2, {notAnOption: true})` keeps
all three positional with empty options. -/
theorem C7_splitter_witness :
    splitArgsAndOptions [.num 1, .num 2, .obj [("maxFee", .num 10)]] =
      .ok ([.num 1, .num 2], .obj [("maxFee", .num 10)])
    ∧ splitArgsAndOptions [.num 1, .num 2, .obj [("notAnOption", .bool true)]] =
      .ok ([.num 1, .num 2, .obj [("notAnOption", .bool true)]], .obj []) := by
  constructor
  · exact (C7_splitter [.num 1, .num 2, .obj [("maxFee", .num 10)]]
        [("maxFee", .num 10)] rfl).1
      ⟨("maxFee", .num 10), by simp, by decide⟩
  · exact (C7_splitter [.num 1, .num 2, .obj [("notAnOption", .bool true)]]
        [("notAnOption", .bool true)] rfl).2
      (by
        intro p hp
        simp at hp
        subst hp
        decide)

/-- Modelled from the spec's words (§3, §6): the write-path option
vocabulary that claim C9 says the splitter consults for invoke-style
bound calls. -/
def specInvokeOptionKeys : List String :=
  ["maxFee", "nonce", "signature", "parseRequest"]

/-- Counterexample to claim C9 as stated: an invoke-style bound call
with a trailing record whose only key is `blockIdentifier` — a key
outside the claimed write-path vocabulary — still consumes that record
as the options object: only the remaining positional argument reaches
validation and compilation, and the record does not.  The code has one
single splitter vocabulary shared by both paths. -/
theorem C9_counterexample :
    "blockIdentifier" ∉ specInvokeOptionKeys
    ∧ runBound (buildInvoke fWrite) c1
        [.num 1, .obj [("blockIdentifier", .num 2)]] =
        ([.validate "INVOKE" "f" (.arr false [.num 1]),
          .compile "f" (.arr false [.num 1]),
          .execute ⟨.str "0xabc", "f", .arr true []⟩ .undefined .undefined],
         .ok (.value (.str "txr"))) :=
  ⟨by decide, rfl⟩

/-- Claim C9 (amended): the splitter uses one single recognized-option
vocabulary — `optionKeys`, the seven-key read superset — identically
for call-style and invoke-style bound operations: on both paths a
trailing record is consumed as options exactly when one of its keys is
in that single list. -/
theorem C9_single_vocabulary (f : AbiEntry) (c : Contract)
    (argList : List JSValue) (fields : List (String × JSValue))
    (h : argList.getLast? = some (.obj fields)) :
    optionKeys = ["blockIdentifier", "parseRequest", "parseResponse",
                  "formatResponse", "maxFee", "nonce", "signature"]
    ∧ ((∃ p ∈ fields, p.1 ∈ optionKeys) →
        runBound (buildInvoke f) c argList =
          M.mapValue
            (c.invoke f.name (.arr false argList.dropLast)
              (spreadMerge [("parseRequest", .bool true)] (.obj fields)))
            RunResult.value
        ∧ runBound (buildCall f) c argList =
          M.mapValue
            (c.call f.name (.arr false argList.dropLast)
              (spreadMerge [("parseRequest", .bool true),
                            ("parseResponse", .bool true)] (.obj fields)))
            RunResult.value)
    ∧ ((∀ p ∈ fields, p.1 ∉ optionKeys) →
        runBound (buildInvoke f) c argList =
          M.mapValue
            (c.invoke f.name (.arr false argList)
              (spreadMerge [("parseRequest", .bool true)] (.obj [])))
            RunResult.value
        ∧ runBound (buildCall f) c argList =
          M.mapValue
            (c.call f.name (.arr false argList)
              (spreadMerge [("parseRequest", .bool true),
                            ("parseResponse", .bool true)] (.obj [])))
            RunResult.value) := by
  refine ⟨rfl, ?_, ?_⟩
  · intro hk
    have hsp := splitter_recognized h hk
    constructor
    · unfold runBound buildInvoke
      rw [hsp]
    · unfold runBound buildCall
      rw [hsp]
  · intro hk
    have hsp := splitter_unrecognized h hk
    constructor
    · unfold runBound buildInvoke
      rw [hsp]
    · unfold runBound buildCall
      rw [hsp]

/-- Witness for C9 (amended): a trailing `{maxFee: 10}` record is
consumed as options on the invoke-style path. -/
theorem C9_single_vocabulary_witness :
    runBound (buildInvoke fWrite) c1 [.num 1, .obj [("maxFee", .num 10)]] =
      M.mapValue
        (Contract.invoke c1 "f" (.arr false [.num 1])
          (spreadMerge [("parseRequest", .bool true)]
            (.obj [("maxFee", .num 10)])))
        RunResult.value :=
  ((C9_single_vocabulary fWrite c1 [.num 1, .obj [("maxFee", .num 10)]]
      [("maxFee", .num 10)] rfl).2.1
    ⟨("maxFee", .num 10), by simp, by decide⟩).1

/-- Counterexample to claim C10 as stated: a populate-style bound
operation (an entry of the `populateTransaction` collection) invoked
with a non-empty argument list ending in `null` does not throw a
`TypeError` — it never runs the splitter, compiles the raw argument
list, and returns the built `Call`. -/
theorem C10_counterexample :
    runBound (buildPopulate fWrite) c1 [JSValue.null] =
      ([.compile "f" (.arr false [JSValue.null])],
       .ok (.callObj ⟨.str "0xabc", "f", .arr true []⟩)) := rfl

/-- Claim C10 (amended): for the bound operations that route through
the argument/option splitter — the default-dispatch closures and the
pure-read (`callStatic`) closures — a non-empty argument list whose
last value is `null` makes the call throw a `TypeError` (`typeof null`
is `'object'`, and key membership is then tested on `null`) with an
empty action trace, i.e. before any validation, compilation, or
backend dispatch.  The populate-style and estimate-style bound
operations do not run the splitter, so they are not covered (see the
counterexample). -/
theorem C10_splitter_null (f : AbiEntry) (c : Contract)
    (argList : List JSValue) (h : argList.getLast? = some .null) :
    runBound (buildDefault f) c argList = ([], .error .typeError)
    ∧ runBound (buildCall f) c argList = ([], .error .typeError)
    ∧ runBound (buildInvoke f) c argList = ([], .error .typeError) := by
  have hsp := splitter_null h
  refine ⟨?_, ?_, ?_⟩
  · unfold buildDefault
    split
    · unfold runBound buildCall
      rw [hsp]
    · unfold runBound buildInvoke
      rw [hsp]
  · unfold runBound buildCall
    rw [hsp]
  · unfold runBound buildInvoke
    rw [hsp]

/-- Witness for C10 (amended) at a concrete argument list. -/
theorem C10_splitter_null_witness :
    runBound (buildDefault fWrite) c1 [.num 1, JSValue.null] =
      ([], .error .typeError) :=
  (C10_splitter_null fWrite c1 [.num 1, JSValue.null] rfl).1

/-! ### Constructor-binding lemmas (claim C6) -/

/-- The per-collection view of one binding iteration. -/
def collStep (build : AbiEntry → BoundOp) (m : List (String × BoundOp))
    (e : AbiEntry) : List (String × BoundOp) :=
  if e.type == "function" then addIfAbsent m e.name (build e) else m

/-- The instance-namespace view of one binding iteration. -/
def ownStep (m : List (String × PropVal)) (e : AbiEntry) :
    List (String × PropVal) :=
  if e.type == "function" then
    (if truthyLookup m e.name then m
     else setProp m e.name (.bound (buildDefault e)))
  else m

theorem bindStep_own (st : BindState) (e : AbiEntry) :
    (bindStep st e).own = ownStep st.own e := by
  unfold bindStep ownStep
  split <;> rfl

theorem bindStep_functions (st : BindState) (e : AbiEntry) :
    (bindStep st e).functions = collStep buildDefault st.functions e := by
  unfold bindStep collStep
  split <;> rfl

theorem bindStep_callStatic (st : BindState) (e : AbiEntry) :
    (bindStep st e).callStatic = collStep buildCall st.callStatic e := by
  unfold bindStep collStep
  split <;> rfl

theorem bindStep_populateTransaction (st : BindState) (e : AbiEntry) :
    (bindStep st e).populateTransaction =
      collStep buildPopulate st.populateTransaction e := by
  unfold bindStep collStep
  split <;> rfl

theorem bindStep_estimateFee (st : BindState) (e : AbiEntry) :
    (bindStep st e).estimateFee = collStep buildEstimate st.estimateFee e := by
  unfold bindStep collStep
  split <;> rfl

theorem bindAll_own (init : BindState) (abi : List AbiEntry) :
    (bindAll init abi).own = abi.foldl ownStep init.own := by
  induction abi generalizing init with
  | nil => rfl
  | cons e abi ih =>
      show (bindAll (bindStep init e) abi).own = _
      rw [ih, bindStep_own, List.foldl_cons]

theorem bindAll_functions (init : BindState) (abi : List AbiEntry) :
    (bindAll init abi).functions =
      abi.foldl (collStep buildDefault) init.functions := by
  induction abi generalizing init with
  | nil => rfl
  | cons e abi ih =>
      show (bindAll (bindStep init e) abi).functions = _
      rw [ih, bindStep_functions, List.foldl_cons]

theorem bindAll_callStatic (init : BindState) (abi : List AbiEntry) :
    (bindAll init abi).callStatic =
      abi.foldl (collStep buildCall) init.callStatic := by
  induction abi generalizing init with
  | nil => rfl
  | cons e abi ih =>
      show (bindAll (bindStep init e) abi).callStatic = _
      rw [ih, bindStep_callStatic, List.foldl_cons]

theorem bindAll_populateTransaction (init : BindState) (abi : List AbiEntry) :
    (bindAll init abi).populateTransaction =
      abi.foldl (collStep buildPopulate) init.populateTransaction := by
  induction abi generalizing init with
  | nil => rfl
  | cons e abi ih =>
      show (bindAll (bindStep init e) abi).populateTransaction = _
      rw [ih, bindStep_populateTransaction, List.foldl_cons]

theorem bindAll_estimateFee (init : BindState) (abi : List AbiEntry) :
    (bindAll init abi).estimateFee =
      abi.foldl (collStep buildEstimate) init.estimateFee := by
  induction abi generalizing init with
  | nil => rfl
  | cons e abi ih =>
      show (bindAll (bindStep init e) abi).estimateFee = _
      rw [ih, bindStep_estimateFee, List.foldl_cons]

theorem lookup_append_some {α : Type} {m : List (String × α)} {k : String}
    {v : α} (h : m.lookup k = some v) (l : List (String × α)) :
    (m ++ l).lookup k = some v := by
  induction m with
  | nil => simp [List.lookup] at h
  | cons p m ih =>
      rcases p with ⟨k2, v2⟩
      by_cases hk : (k == k2) = true
      · simp only [List.cons_append, List.lookup, hk] at h ⊢
        exact h
      · have hkf : (k == k2) = false := by simpa using hk
        simp only [List.cons_append, List.lookup, hkf] at h ⊢
        exact ih h

theorem lookup_append_none {α : Type} {m : List (String × α)} {k : String}
    (h : m.lookup k = none) (l : List (String × α)) :
    (m ++ l).lookup k = l.lookup k := by
  induction m with
  | nil => rfl
  | cons p m ih =>
      rcases p with ⟨k2, v2⟩
      by_cases hk : (k == k2) = true
      · simp only [List.lookup, hk] at h
        cases h
      · have hkf : (k == k2) = false := by simpa using hk
        simp only [List.cons_append, List.lookup, hkf] at h ⊢
        exact ih h

theorem lookup_append_single_ne {α : Type} {m : List (String × α)}
    {k k2 : String} {v2 : α} (h : (k == k2) = false) :
    (m ++ [(k2, v2)]).lookup k = m.lookup k := by
  induction m with
  | nil => simp [List.lookup, h]
  | cons p m ih =>
      rcases p with ⟨k3, v3⟩
      by_cases hk : (k == k3) = true
      · simp only [List.cons_append, List.lookup, hk]
      · have hkf : (k == k3) = false := by simpa using hk
        simp only [List.cons_append, List.lookup, hkf]
        exact ih

theorem addIfAbsent_lookup_some {α : Type} {m : List (String × α)}
    {k : String} {v : α} (h : m.lookup k = some v) (k2 : String) (v2 : α) :
    (addIfAbsent m k2 v2).lookup k = some v := by
  unfold addIfAbsent
  rcases h2 : m.lookup k2 with _ | w
  · exact lookup_append_some h _
  · exact h

theorem collFold_preserve {build : AbiEntry → BoundOp}
    {m : List (String × BoundOp)} {k : String} {v : BoundOp}
    (h : m.lookup k = some v) (abi : List AbiEntry) :
    (abi.foldl (collStep build) m).lookup k = some v := by
  induction abi generalizing m with
  | nil => exact h
  | cons e abi ih =>
      rw [List.foldl_cons]
      apply ih
      unfold collStep
      split
      · exact addIfAbsent_lookup_some h _ _
      · exact h

theorem collFold_lookup_none {build : AbiEntry → BoundOp}
    {m : List (String × BoundOp)} {k : String}
    (hm : m.lookup k = none) (abi : List AbiEntry) :
    (abi.foldl (collStep build) m).lookup k =
      ((abi.find? fun e => e.type == "function" && e.name == k).map build) := by
  induction abi generalizing m with
  | nil => simp [hm]
  | cons e abi ih =>
      rw [List.foldl_cons]
      by_cases htype : (e.type == "function") = true
      · by_cases hname : (e.name == k) = true
        · have hek : e.name = k := by simpa using hname
          have hstep : collStep build m e = m ++ [(e.name, build e)] := by
            unfold collStep addIfAbsent
            rw [if_pos htype, hek, hm]
          rw [hstep]
          have hlk : (m ++ [(e.name, build e)]).lookup k = some (build e) := by
            rw [lookup_append_none hm, hek]
            simp [List.lookup]
          rw [collFold_preserve hlk abi,
              List.find?_cons_of_pos _ (by simp [htype, hname])]
          rfl
        · have hnf : (e.name == k) = false := by simpa using hname
          have hkn : (k == e.name) = false := by
            simp only [beq_eq_false_iff_ne] at hnf ⊢
            exact fun hc => hnf hc.symm
          have hstep : (collStep build m e).lookup k = none := by
            unfold collStep addIfAbsent
            rw [if_pos htype]
            rcases h2 : m.lookup e.name with _ | w
            · rw [lookup_append_single_ne hkn]
              exact hm
            · exact hm
          rw [ih hstep, List.find?_cons_of_neg _ (by simp [hnf])]
      · have hstep : collStep build m e = m := by
          unfold collStep
          rw [if_neg htype]
        have htf : (e.type == "function") = false := by simpa using htype
        rw [hstep, ih hm, List.find?_cons_of_neg _ (by simp [htf])]

theorem lookup_map_replace {m : List (String × PropVal)} {k k2 : String}
    {v2 : PropVal} (h : (k == k2) = false) :
    (m.map (fun p => if p.1 == k2 then (k2, v2) else p)).lookup k =
      m.lookup k := by
  induction m with
  | nil => rfl
  | cons p m ih =>
      rcases p with ⟨k3, v3⟩
      simp only [List.map_cons]
      by_cases h3 : (k3 == k2) = true
      · have hk3 : k3 = k2 := by simpa using h3
        subst hk3
        rw [if_pos h3]
        simp only [List.lookup, h]
        exact ih
      · rw [if_neg h3]
        by_cases hk : (k == k3) = true
        · simp only [List.lookup, hk]
        · have hkf : (k == k3) = false := by simpa using hk
          simp only [List.lookup, hkf]
          exact ih

theorem setProp_lookup_ne {m : List (String × PropVal)} {k k2 : String}
    {v2 : PropVal} (h : (k == k2) = false) :
    (setProp m k2 v2).lookup k = m.lookup k := by
  unfold setProp
  split
  · exact lookup_map_replace h
  · exact lookup_append_single_ne h

theorem ownStep_preserve {m : List (String × PropVal)} {k : String}
    {v : PropVal} (hv : m.lookup k = some v) (ht : truthyProp v = true)
    (e : AbiEntry) : (ownStep m e).lookup k = some v := by
  unfold ownStep
  split
  · split
    · exact hv
    · rename_i htL
      have hne : (k == e.name) = false := by
        by_contra hc
        rw [Bool.not_eq_false] at hc
        have hke : k = e.name := by simpa using hc
        subst hke
        apply htL
        unfold truthyLookup
        rw [hv]
        exact ht
      rw [setProp_lookup_ne hne]
      exact hv
  · exact hv

theorem ownFold_preserve {m : List (String × PropVal)} {k : String}
    {v : PropVal} (hv : m.lookup k = some v) (ht : truthyProp v = true)
    (abi : List AbiEntry) : (abi.foldl ownStep m).lookup k = some v := by
  induction abi generalizing m with
  | nil => exact hv
  | cons e abi ih =>
      rw [List.foldl_cons]
      exact ih (ownStep_preserve hv ht e)

/-- Claim C6 (amended): method binding never overwrites an existing
property whose current value is truthy — the constructor checks
`if (!this[signature])`, a truthiness test, so lifecycle prototype
methods such as `attach` and `connect` (function values, always truthy)
and existing collection entries are kept unchanged; but a property
whose current value is falsy (for example the `address` property of a
contract constructed with an empty or null address) is overwritten by a
schema entry of the same name (see the counterexample).  For duplicate
function names the first occurrence wins in every collection and later
occurrences are ignored. -/
theorem C6_binding (init : BindState) (abi : List AbiEntry) (k : String) :
    (∀ v, init.own.lookup k = some v → truthyProp v = true →
       (bindAll init abi).own.lookup k = some v)
    ∧ (∀ op, init.functions.lookup k = some op →
       (bindAll init abi).functions.lookup k = some op)
    ∧ (∀ op, init.callStatic.lookup k = some op →
       (bindAll init abi).callStatic.lookup k = some op)
    ∧ (∀ op, init.populateTransaction.lookup k = some op →
       (bindAll init abi).populateTransaction.lookup k = some op)
    ∧ (∀ op, init.estimateFee.lookup k = some op →
       (bindAll init abi).estimateFee.lookup k = some op)
    ∧ (init.functions.lookup k = none →
       (bindAll init abi).functions.lookup k =
         ((abi.find? fun e => e.type == "function" && e.name == k).map
           buildDefault))
    ∧ (init.callStatic.lookup k = none →
       (bindAll init abi).callStatic.lookup k =
         ((abi.find? fun e => e.type == "function" && e.name == k).map
           buildCall))
    ∧ (init.populateTransaction.lookup k = none →
       (bindAll init abi).populateTransaction.lookup k =
         ((abi.find? fun e => e.type == "function" && e.name == k).map
           buildPopulate))
    ∧ (init.estimateFee.lookup k = none →
       (bindAll init abi).estimateFee.lookup k =
         ((abi.find? fun e => e.type == "function" && e.name == k).map
           buildEstimate)) := by
  refine ⟨?_, ?_, ?_, ?_, ?_, ?_, ?_, ?_, ?_⟩
  · intro v hv ht
    rw [bindAll_own]
    exact ownFold_preserve hv ht abi
  · intro op hop
    rw [bindAll_functions]
    exact collFold_preserve hop abi
  · intro op hop
    rw [bindAll_callStatic]
    exact collFold_preserve hop abi
  · intro op hop
    rw [bindAll_populateTransaction]
    exact collFold_preserve hop abi
  · intro op hop
    rw [bindAll_estimateFee]
    exact collFold_preserve hop abi
  · intro hnone
    rw [bindAll_functions]
    exact collFold_lookup_none hnone abi
  · intro hnone
    rw [bindAll_callStatic]
    exact collFold_lookup_none hnone abi
  · intro hnone
    rw [bindAll_populateTransaction]
    exact collFold_lookup_none hnone abi
  · intro hnone
    rw [bindAll_estimateFee]
    exact collFold_lookup_none hnone abi

/-- A schema entry named after the instance's own `address` property. -/
def fAddrShadow : AbiEntry :=
  { type := "function", name := "address", inputs := some [] }

/-- A duplicate of `fWrite`'s name with view mutability, to observe
which of two same-named entries wins. -/
def fDupView : AbiEntry :=
  { type := "function", name := "f", inputs := some [],
    stateMutability := some "view" }

/-- Counterexample to claim C6 as stated: on a contract constructed
with the empty-string address (a falsy value), a schema function named
`address` overwrites the existing `address` property — the source's
`if (!this[signature])` is a truthiness check, not an existence check,
so the falsy existing property is replaced by the bound operation. -/
theorem C6_counterexample :
    (initialBindState (.str "")).own.lookup "address" =
      some (.jsVal (.str ""))
    ∧ (constructProps [fAddrShadow] (.str "")).own.lookup "address" =
        some (.bound (buildDefault fAddrShadow))
    ∧ PropVal.bound (buildDefault fAddrShadow) ≠ PropVal.jsVal (.str "") :=
  ⟨rfl, rfl, fun h => PropVal.noConfusion h⟩

/-- Witness for C6 (amended): on a truthy-address contract the
`attach` prototype method survives binding a schema entry named
`attach`, and of two entries both named `f` the first wins in the
`functions` collection. -/
theorem C6_binding_witness :
    (bindAll (initialBindState (.str "0xabc"))
        [{ type := "function", name := "attach", inputs := some [] }]).own.lookup
        "attach" = some (.protoMethod "attach")
    ∧ (bindAll (initialBindState (.str "0xabc"))
        [fWrite, fDupView]).functions.lookup "f" =
        some (buildDefault fWrite) := by
  constructor
  · exact (C6_binding (initialBindState (.str "0xabc"))
      [{ type := "function", name := "attach", inputs := some [] }]
      "attach").1 (.protoMethod "attach") rfl rfl
  · rw [(C6_binding (initialBindState (.str "0xabc"))
      [fWrite, fDupView] "f").2.2.2.2.2.1 rfl]
    rfl

/-- A concrete factory over `fWrite`'s ABI with a succeeding backend. -/
def cf0 : ContractFactory :=
  { abi := [fWrite], account := bk0, callData := cdNop }

/-- The same factory whose backend reports an `undefined` deployed
address. -/
def cfFail : ContractFactory :=
  { abi := [fWrite], account := { bk0 with deployAddress := .undefined },
    callData := cdNop }

/-- Claim C8, behavior at the failing input (code bug): `deploy(1, 2)`
with plain positional constructor arguments does not validate or
compile them under `DEPLOY` mode — the splitter always returns an
options object (here `{}`), so the written destructuring default
`options = { parseRequest: true }` never applies, `options.parseRequest`
reads as `undefined` (falsy), and the raw args are forwarded with only
a warning.  The rest of the claim holds: an explicit
`{parseRequest: true}` options object does produce the `DEPLOY`
validate-then-compile prefix; a falsy `contract_address` from the
backend fails with `Deployment of the contract failed` after the
`declareAndDeploy` request, with no instance returned; and on success a
freshly bound instance carrying the deployment transaction hash is
returned. -/
theorem C8_deploy_behavior :
    (ContractFactory.deploy cf0 [.num 1, .num 2]).1 =
        [.warn "Call skipped parsing but provided rawArgs, possible malfunction request",
         .declareAndDeploy (.arr false [.num 1, .num 2]) .undefined]
    ∧ (∃ dc, (ContractFactory.deploy cf0 [.num 1, .num 2]).2 = .ok dc
        ∧ dc.deployTransactionHash = .str "0xth"
        ∧ dc.props = constructProps [fWrite] (.str "0xAB"))
    ∧ ContractFactory.deploy cfFail [.num 1, .num 2] =
        ([.warn "Call skipped parsing but provided rawArgs, possible malfunction request",
          .declareAndDeploy (.arr false [.num 1, .num 2]) .undefined],
         .error (.error "Deployment of the contract failed"))
    ∧ (ContractFactory.deploy cf0
        [.num 1, .num 2, .obj [("parseRequest", .bool true)]]).1 =
        [.validate "DEPLOY" "constructor" (.arr false [.num 1, .num 2]),
         .compile "constructor" (.arr false [.num 1, .num 2]),
         .declareAndDeploy (.arr true []) .undefined] :=
  ⟨rfl, ⟨_, rfl, rfl, rfl⟩, rfl, rfl⟩

end StarknetJS
